import Mathlib

/-!
Verification development for the ConQuotas (RootfsQuota) repository.

Shallow embedding of the components the claims are about:

* `ProjectIDPool` (src/pkg/xfs/projectid.go) — the identifier pool. The Go
  field `used : map[uint32]bool` only ever stores the value `true`
  (`MarkUsed`/`Allocate` set `true`, `Release` deletes the key), so it is
  modelled as a `Finset ℕ` of keys; uint32 arithmetic in the `Allocate`
  scan loop is modelled with explicit `% 2^32`.
* `StateManager` (src/pkg/xfs state file) — the durable container → entry
  map, modelled as an association list; the durable write (`save`,
  i.e. `os.WriteFile`) is an external effect, modelled by a boolean oracle
  telling whether it succeeds.
* `GetProjectID` (src/pkg/handler/utils.go) — identifier resolution during
  deletion; the filesystem read-back (`GetProjectIDFromXFS`) is modelled as
  an `Option ℕ` input (`none` = the read failed; Go then returns id 0 with
  an error).
* the event-handling / reconciliation sequences, in both variants present
  in the repository: `handleTaskCreate`/`handleTaskDelete`/`syncState` from
  src/pkg/handler/handle.go (the production path reached from
  src/cmd/main.go) and the corresponding loop bodies of src/test/main.go.
  External calls (xfs_quota tag / limit, pool operations) are recorded in a
  trace so that statements about which calls happen can be made.
-/

namespace ConQuotas

/-- The modulus of Go uint32 arithmetic. -/
def u32 : ℕ := 2 ^ 32

/-- One persisted quota assignment (struct `Entry` of the state file:
fields container_id, project_id, upperdir). -/
structure Entry where
  containerID : String
  projectID : ℕ
  upperdir : String
deriving DecidableEq, Repr

/-- The in-memory entries map `map[string]Entry`, as an association list
with unique keys. -/
abbrev Entries := List (String × Entry)

/-- Map assignment `m[cid] = e` : replaces any binding of `cid`. -/
def insertEntry (es : Entries) (cid : String) (e : Entry) : Entries :=
  (cid, e) :: es.filter (fun p => p.1 ≠ cid)

/-- Map deletion `delete(m, cid)`. -/
def removeEntry (es : Entries) (cid : String) : Entries :=
  es.filter (fun p => p.1 ≠ cid)

/-- `StateManager.AddEntry`: inserts the entry into the in-memory map and
then calls `save`; `save` marshals (which cannot fail for this type) and
writes the file, whose success is the oracle `writeOk`.  The Go code
returns `m.save()` after the map mutation, so the mutation is kept even
when the write fails. -/
def AddEntry (es : Entries) (cid : String) (pid : ℕ) (up : String)
    (writeOk : Bool) : Bool × Entries :=
  (writeOk, insertEntry es cid ⟨cid, pid, up⟩)

/-- `StateManager.RemoveEntry`: deletes from the in-memory map, then saves
(`writeOk` oracle); the deletion is kept even when the write fails. -/
def RemoveEntry (es : Entries) (cid : String) (writeOk : Bool) :
    Bool × Entries :=
  (writeOk, removeEntry es cid)

/-- `StateManager.GetEntry`. -/
def GetEntry (es : Entries) (cid : String) : Option Entry :=
  List.lookup cid es

/-- `StateManager.load`, as a function of the file content
(`none` = `os.ReadFile` failed with not-exist) and of the in-memory state
`initial` at the time of the call.  The JSON decoder is an abstract
parameter `parse` (`none` = `json.Unmarshal` error).  Error value `true`
stands for a not-exist read error, `false` for a malformed document. -/
def load (parse : String → Option Entries) (file : Option String)
    (initial : Entries) : Except Bool Entries :=
  match file with
  | none => .error true
  | some data =>
    if data.length = 0 ∨ initial ≠ [] then .ok initial
    else
      match parse data with
      | some st => .ok st
      | none => .error false

/-- `NewStateManager`: starts from an empty map, calls `load`; a not-exist
error creates the file and keeps the empty state, any other load error
fails construction (`none`). -/
def NewStateManager (parse : String → Option Entries)
    (file : Option String) : Option Entries :=
  match load parse file [] with
  | .ok es => some es
  | .error true => some []
  | .error false => none

/-- `ProjectIDPool` (src/pkg/xfs/projectid.go): the keys of the `used`
map plus the configured inclusive range. -/
structure ProjectIDPool where
  used : Finset ℕ
  minID : ℕ
  maxID : ℕ
deriving DecidableEq

/-- `NewProjectIDPool`. -/
def NewProjectIDPool (minID maxID : ℕ) : ProjectIDPool :=
  ⟨∅, minID, maxID⟩

/-- The scan loop of `Allocate`:
`for id := p.minID; id <= p.maxID; id++ { if !p.used[id] { ... return id } }`.
`id` is a uint32, so the increment wraps modulo `2^32`.  The loop is given
as structural recursion on a fuel argument; `Allocate` passes `2 * u32`
fuel, which covers every terminating run of the Go loop (a terminating run
checks each of the at most `2^32` distinct uint32 values at most once
before exiting); the only behaviour lost is the run where all `2^32`
identifiers are in the map, on which the Go loop never terminates. -/
def allocScan (used : Finset ℕ) (maxID : ℕ) : ℕ → ℕ → Option ℕ
  | 0, _ => none
  | fuel + 1, id =>
    if maxID < id then none
    else if id ∈ used then allocScan used maxID fuel ((id + 1) % u32)
    else some id

/-- `ProjectIDPool.Allocate`: returns the scanned identifier and marks it
used, or reports exhaustion leaving the pool unchanged. -/
def ProjectIDPool.Allocate (p : ProjectIDPool) :
    Option ℕ × ProjectIDPool :=
  match allocScan p.used p.maxID (2 * u32) p.minID with
  | some id => (some id, { p with used := insert id p.used })
  | none => (none, p)

/-- `ProjectIDPool.Release`: `delete(p.used, id)`, unconditional. -/
def ProjectIDPool.Release (p : ProjectIDPool) (id : ℕ) : ProjectIDPool :=
  { p with used := p.used.erase id }

/-- `ProjectIDPool.MarkUsed`: `p.used[id] = true`, with no range check. -/
def ProjectIDPool.MarkUsed (p : ProjectIDPool) (id : ℕ) : ProjectIDPool :=
  { p with used := insert id p.used }

/-- A call in a sequence of pool operations (claim C6 quantifies over
these). -/
inductive PoolOp where
  | alloc
  | release (id : ℕ)
  | mark (id : ℕ)
deriving DecidableEq, Repr

/-- Apply one pool operation (discarding `Allocate`'s returned value). -/
def applyOp (p : ProjectIDPool) : PoolOp → ProjectIDPool
  | .alloc => (ProjectIDPool.Allocate p).2
  | .release id => p.Release id
  | .mark id => p.MarkUsed id

/-- Apply a finite sequence of pool operations. -/
def applyOps (p : ProjectIDPool) : List PoolOp → ProjectIDPool
  | [] => p
  | op :: ops => applyOps (applyOp p op) ops

/-- `GetProjectID` (src/pkg/handler/utils.go).  `fsRead` is the result of
`GetProjectIDFromXFS(path)` (`none` = error, in which case Go has `id = 0`).
Returns `.error ()` where Go returns a non-nil error. -/
def GetProjectID (es : Entries) (cid : String) (fsRead : Option ℕ) :
    Except Unit ℕ :=
  let id := fsRead.getD 0
  match GetEntry es cid, fsRead with
  | none, none => .error ()
  | some e, _ => if id ≠ 0 ∧ e.projectID ≠ id then .error () else .ok id
  | none, some _ => .ok id

/-- One recorded external call: pool allocation (with its result),
release, mark-used, `SetProjectIDWithXFSQuota` (tag) and
`SetProjectQuotaWithXFSQuota` (set limit). -/
inductive ECall where
  | allocOk (id : ℕ)
  | allocFail
  | release (id : ℕ)
  | markUsed (id : ℕ)
  | tag (path : String) (id : ℕ)
  | setLimit (id : ℕ) (soft hard : String)
deriving DecidableEq, Repr

/-- Result of one creation sequence: whether it completed without error,
the pool's used set, the entries map, and the trace of calls made. -/
structure CreateResult where
  ok : Bool
  used : Finset ℕ
  entries : Entries
  calls : List ECall
deriving DecidableEq

/-- `handleTaskCreate` (src/pkg/handler/handle.go).  Oracles: `tagOk` for
`SetProjectIDWithXFSQuota`, `limitOk` for `SetProjectQuotaWithXFSQuota`,
`writeOk` for the durable write inside `AddEntry`.  Note the source passes
`q.cfg.Quota.DefaultSoft` as both the soft and the hard argument of the
limit call, and releases the identifier when `AddEntry` fails. -/
def handleTaskCreate (p : ProjectIDPool) (es : Entries)
    (softCfg hardCfg : String) (cid upperdir : String)
    (tagOk limitOk writeOk : Bool) : CreateResult :=
  match p.Allocate with
  | (none, _) => ⟨false, p.used, es, [.allocFail]⟩
  | (some id, p') =>
    if tagOk = false then
      ⟨false, (p'.Release id).used, es,
        [.allocOk id, .tag upperdir id, .release id]⟩
    else if limitOk = false then
      ⟨false, (p'.Release id).used, es,
        [.allocOk id, .tag upperdir id, .setLimit id softCfg softCfg,
         .release id]⟩
    else
      let es' := insertEntry es cid ⟨cid, id, upperdir⟩
      if writeOk = false then
        ⟨false, (p'.Release id).used, es',
          [.allocOk id, .tag upperdir id, .setLimit id softCfg softCfg,
           .release id]⟩
      else
        ⟨true, p'.used, es',
          [.allocOk id, .tag upperdir id, .setLimit id softCfg softCfg]⟩

/-- The `TaskCreate` branch of the event loop of src/test/main.go.  The
limit call is made with `(cfg.DefaultQuotaSoft, cfg.DefaultQuotaHard)`,
and an `AddEntry` failure is only logged: the identifier stays allocated
and the entry stays in the in-memory map. -/
def testTaskCreate (p : ProjectIDPool) (es : Entries)
    (softCfg hardCfg : String) (cid upperdir : String)
    (tagOk limitOk writeOk : Bool) : CreateResult :=
  match p.Allocate with
  | (none, _) => ⟨false, p.used, es, [.allocFail]⟩
  | (some id, p') =>
    if tagOk = false then
      ⟨false, (p'.Release id).used, es,
        [.allocOk id, .tag upperdir id, .release id]⟩
    else if limitOk = false then
      ⟨false, (p'.Release id).used, es,
        [.allocOk id, .tag upperdir id, .setLimit id softCfg hardCfg,
         .release id]⟩
    else
      ⟨writeOk, p'.used, insertEntry es cid ⟨cid, id, upperdir⟩,
        [.allocOk id, .tag upperdir id, .setLimit id softCfg hardCfg]⟩

/-- Result of one deletion sequence. -/
structure DeleteResult where
  ok : Bool
  used : Finset ℕ
  entries : Entries
  calls : List ECall
deriving DecidableEq

/-- `handleTaskDelete` (src/pkg/handler/handle.go).  Inputs: `upperRes` is
the result of `GetSnapshotUpperdir` (`none` = error, abort), `pathEx`
whether `os.Stat(upperdir)` succeeds, `fsRead` the filesystem read-back
fed to `GetProjectID`, `clearOk` the outcome of the limit-clearing call,
`writeOk` the durable write inside `RemoveEntry`.  A clearing failure
returns before `RemoveEntry` and `Release`; a `RemoveEntry` write failure
returns before `Release` (with the in-memory deletion kept). -/
def handleTaskDelete (p : ProjectIDPool) (es : Entries) (cid : String)
    (upperRes : Option String) (pathEx : Bool) (fsRead : Option ℕ)
    (clearOk writeOk : Bool) : DeleteResult :=
  match upperRes with
  | none => ⟨false, p.used, es, []⟩
  | some _ =>
    match (if pathEx then GetProjectID es cid fsRead else .ok 0 :
        Except Unit ℕ) with
    | .error _ => ⟨false, p.used, es, []⟩
    | .ok id =>
      if clearOk = false then
        ⟨false, p.used, es, [.setLimit id "0" "0"]⟩
      else
        let es' := removeEntry es cid
        if writeOk = false then
          ⟨false, p.used, es', [.setLimit id "0" "0"]⟩
        else
          ⟨true, (p.Release id).used, es',
            [.setLimit id "0" "0", .release id]⟩

/-- The `TaskDelete` branch of the event loop of src/test/main.go.  A
failure of the clearing call or of the `RemoveEntry` write is only
logged; the entry removal and the `Release` run regardless. -/
def testTaskDelete (p : ProjectIDPool) (es : Entries) (cid : String)
    (upperRes : Option String) (pathEx : Bool) (fsRead : Option ℕ)
    (clearOk writeOk : Bool) : DeleteResult :=
  match upperRes with
  | none => ⟨false, p.used, es, []⟩
  | some _ =>
    match (if pathEx then GetProjectID es cid fsRead else .ok 0 :
        Except Unit ℕ) with
    | .error _ => ⟨false, p.used, es, []⟩
    | .ok id =>
      ⟨clearOk && writeOk, (p.Release id).used, removeEntry es cid,
        [.setLimit id "0" "0", .release id]⟩

/-- What the reconciliation pass observes about one live container:
its id, the result of `GetSnapshotUpperdir`, whether the path exists on
disk, and the oracles of the restore sequence run if no entry exists. -/
structure ContainerObs where
  cid : String
  upper : Option String
  pathEx : Bool
  tagOk : Bool
  limitOk : Bool
  writeOk : Bool
deriving DecidableEq, Repr

/-- `restoreQuota` (src/pkg/handler/handle.go); also the body of the
no-entry branch of `syncState` in src/test/main.go, which performs the
identical sequence: allocate, tag (release on failure), set limit with
`(soft, hard)` (release on failure), `AddEntry` (failure only propagated
as a logged error, entry and identifier kept). -/
def restoreQuota (p : ProjectIDPool) (es : Entries)
    (softCfg hardCfg cid upperdir : String)
    (tagOk limitOk writeOk : Bool) :
    ProjectIDPool × Entries × List ECall :=
  match p.Allocate with
  | (none, _) => (p, es, [.allocFail])
  | (some id, p') =>
    if tagOk = false then
      (p'.Release id, es, [.allocOk id, .tag upperdir id, .release id])
    else if limitOk = false then
      (p'.Release id, es,
        [.allocOk id, .tag upperdir id, .setLimit id softCfg hardCfg,
         .release id])
    else
      (p', insertEntry es cid ⟨cid, id, upperdir⟩,
        [.allocOk id, .tag upperdir id, .setLimit id softCfg hardCfg])

/-- Per-container body of `syncState` in src/pkg/handler/handle.go:
skip when the upperdir cannot be resolved or the path does not exist;
when the store already has an entry for the container, do nothing (the
source has no else-branch: no `MarkUsed` call); otherwise run
`restoreQuota`. -/
def syncStepHandler (softCfg hardCfg : String) (p : ProjectIDPool)
    (es : Entries) (c : ContainerObs) :
    ProjectIDPool × Entries × List ECall :=
  match c.upper with
  | none => (p, es, [])
  | some up =>
    if c.pathEx = false then (p, es, [])
    else
      match GetEntry es c.cid with
      | some _ => (p, es, [])
      | none => restoreQuota p es softCfg hardCfg c.cid up
          c.tagOk c.limitOk c.writeOk

/-- Per-container body of `syncState` in src/test/main.go: as the handler
variant, except that when the store has an entry the pool is seeded with
`MarkUsed(entry.ProjectID)`. -/
def syncStepTest (softCfg hardCfg : String) (p : ProjectIDPool)
    (es : Entries) (c : ContainerObs) :
    ProjectIDPool × Entries × List ECall :=
  match c.upper with
  | none => (p, es, [])
  | some up =>
    if c.pathEx = false then (p, es, [])
    else
      match GetEntry es c.cid with
      | some e => (p.MarkUsed e.projectID, es, [.markUsed e.projectID])
      | none => restoreQuota p es softCfg hardCfg c.cid up
          c.tagOk c.limitOk c.writeOk

/-- Result of a full reconciliation pass, with each recorded call tagged
by the container it was made for. -/
structure SyncResult where
  pool : ProjectIDPool
  entries : Entries
  calls : List (String × ECall)
deriving DecidableEq

/-- A full reconciliation pass: fold the per-container step over the live
container list, threading pool and store and accumulating the tagged
trace. -/
def syncPass
    (step : ProjectIDPool → Entries → ContainerObs →
      ProjectIDPool × Entries × List ECall) :
    ProjectIDPool → Entries → List ContainerObs → SyncResult
  | p, es, [] => ⟨p, es, []⟩
  | p, es, c :: cs =>
    let r := step p es c
    let rest := syncPass step r.1 r.2.1 cs
    ⟨rest.pool, rest.entries, r.2.2.map (fun k => (c.cid, k)) ++ rest.calls⟩

/-! Lemmas about the `Allocate` scan loop.  All bounds lemmas assume
`maxID + 1 < 2^32`, i.e. the loop counter cannot wrap; without that
assumption the loop genuinely wraps past `maxID` (see the C7
counterexample). -/

/-- An identifier returned by the scan is not in the used map. -/
theorem allocScan_not_mem {used : Finset ℕ} {maxID : ℕ} :
    ∀ (fuel start : ℕ) {id : ℕ},
      allocScan used maxID fuel start = some id → id ∉ used := by
  intro fuel
  induction fuel with
  | zero => intro start id h; simp [allocScan] at h
  | succ n ih =>
    intro start id h
    rw [allocScan] at h
    by_cases h1 : maxID < start
    · simp [h1] at h
    · rw [if_neg h1] at h
      by_cases h2 : start ∈ used
      · rw [if_pos h2] at h
        exact ih _ h
      · rw [if_neg h2] at h
        cases h
        exact h2

/-- Without wraparound, the scan result lies between its start and
`maxID`. -/
theorem allocScan_bounds {used : Finset ℕ} {maxID : ℕ}
    (hmax : maxID + 1 < u32) :
    ∀ (fuel start : ℕ) {id : ℕ},
      allocScan used maxID fuel start = some id →
      start ≤ id ∧ id ≤ maxID := by
  intro fuel
  induction fuel with
  | zero => intro start id h; simp [allocScan] at h
  | succ n ih =>
    intro start id h
    rw [allocScan] at h
    by_cases h1 : maxID < start
    · simp [h1] at h
    · rw [if_neg h1] at h
      by_cases h2 : start ∈ used
      · rw [if_pos h2] at h
        have hlt : start + 1 < u32 := by omega
        rw [Nat.mod_eq_of_lt hlt] at h
        have := ih _ h
        omega
      · rw [if_neg h2] at h
        cases h
        omega

/-- Without wraparound, everything the scan skipped was in the used
map. -/
theorem allocScan_min {used : Finset ℕ} {maxID : ℕ}
    (hmax : maxID + 1 < u32) :
    ∀ (fuel start : ℕ) {id : ℕ},
      allocScan used maxID fuel start = some id →
      ∀ j, start ≤ j → j < id → j ∈ used := by
  intro fuel
  induction fuel with
  | zero => intro start id h; simp [allocScan] at h
  | succ n ih =>
    intro start id h j hj1 hj2
    rw [allocScan] at h
    by_cases h1 : maxID < start
    · simp [h1] at h
    · rw [if_neg h1] at h
      by_cases h2 : start ∈ used
      · rw [if_pos h2] at h
        have hlt : start + 1 < u32 := by omega
        rw [Nat.mod_eq_of_lt hlt] at h
        rcases Nat.eq_or_lt_of_le hj1 with rfl | hj
        · exact h2
        · exact ih _ h j hj hj2
      · rw [if_neg h2] at h
        cases h
        omega

/-- Without wraparound and with enough fuel, the scan succeeds whenever a
free identifier exists in `[start, maxID]`. -/
theorem allocScan_some {used : Finset ℕ} {maxID : ℕ}
    (hmax : maxID + 1 < u32) :
    ∀ (fuel start : ℕ), maxID + 2 ≤ fuel + start →
      ∀ j, start ≤ j → j ≤ maxID → j ∉ used →
      ∃ id, allocScan used maxID fuel start = some id := by
  intro fuel
  induction fuel with
  | zero => intro start hf j hj1 hj2 _; omega
  | succ n ih =>
    intro start hf j hj1 hj2 hj3
    rw [allocScan]
    by_cases h1 : maxID < start
    · omega
    · rw [if_neg h1]
      by_cases h2 : start ∈ used
      · rw [if_pos h2]
        have hlt : start + 1 < u32 := by omega
        rw [Nat.mod_eq_of_lt hlt]
        have hne : start ≠ j := fun e => hj3 (e ▸ h2)
        exact ih (start + 1) (by omega) j (by omega) hj2 hj3
      · rw [if_neg h2]
        exact ⟨start, rfl⟩

/-- Without wraparound, the scan fails when every identifier in
`[start, maxID]` is in the used map. -/
theorem allocScan_none {used : Finset ℕ} {maxID : ℕ}
    (hmax : maxID + 1 < u32) :
    ∀ (fuel start : ℕ),
      (∀ j, start ≤ j → j ≤ maxID → j ∈ used) →
      allocScan used maxID fuel start = none := by
  intro fuel
  induction fuel with
  | zero => intro start _; rfl
  | succ n ih =>
    intro start hall
    rw [allocScan]
    by_cases h1 : maxID < start
    · rw [if_pos h1]
    · rw [if_neg h1]
      have h2 : start ∈ used := hall start le_rfl (by omega)
      rw [if_pos h2]
      have hlt : start + 1 < u32 := by omega
      rw [Nat.mod_eq_of_lt hlt]
      exact ih (start + 1) (fun j hj1 hj2 => hall j (by omega) hj2)

/-- Unfolding `Allocate` when the scan succeeds. -/
theorem Allocate_eq_of_scan_some {p : ProjectIDPool} {id : ℕ}
    (h : allocScan p.used p.maxID (2 * u32) p.minID = some id) :
    p.Allocate = (some id, { p with used := insert id p.used }) := by
  rw [ProjectIDPool.Allocate, h]

/-- Unfolding `Allocate` when the scan fails. -/
theorem Allocate_eq_of_scan_none {p : ProjectIDPool}
    (h : allocScan p.used p.maxID (2 * u32) p.minID = none) :
    p.Allocate = (none, p) := by
  rw [ProjectIDPool.Allocate, h]

/-- A successful `Allocate` comes from a successful scan. -/
theorem Allocate_fst_some {p : ProjectIDPool} {id : ℕ}
    (h : (p.Allocate).1 = some id) :
    allocScan p.used p.maxID (2 * u32) p.minID = some id := by
  rw [ProjectIDPool.Allocate] at h
  rcases hs : allocScan p.used p.maxID (2 * u32) p.minID with _ | j <;>
    rw [hs] at h <;> simp at h
  rw [h]

/-- Pool operations do not change the configured lower bound. -/
theorem applyOp_minID (p : ProjectIDPool) (op : PoolOp) :
    (applyOp p op).minID = p.minID := by
  cases op with
  | alloc =>
    rcases hs : allocScan p.used p.maxID (2 * u32) p.minID with _ | j
    · rw [applyOp, Allocate_eq_of_scan_none hs]
    · rw [applyOp, Allocate_eq_of_scan_some hs]
  | release id => rfl
  | mark id => rfl

/-- Pool operations do not change the configured upper bound. -/
theorem applyOp_maxID (p : ProjectIDPool) (op : PoolOp) :
    (applyOp p op).maxID = p.maxID := by
  cases op with
  | alloc =>
    rcases hs : allocScan p.used p.maxID (2 * u32) p.minID with _ | j
    · rw [applyOp, Allocate_eq_of_scan_none hs]
    · rw [applyOp, Allocate_eq_of_scan_some hs]
  | release id => rfl
  | mark id => rfl

/-- One pool operation preserves the range invariant, provided a
`MarkUsed` argument is within range and the scan cannot wrap. -/
theorem applyOp_used_sub (p : ProjectIDPool) (op : PoolOp)
    (hmax : p.maxID + 1 < u32)
    (hu : p.used ⊆ Finset.Icc p.minID p.maxID)
    (hop : ∀ id, op = PoolOp.mark id → p.minID ≤ id ∧ id ≤ p.maxID) :
    (applyOp p op).used ⊆ Finset.Icc p.minID p.maxID := by
  cases op with
  | alloc =>
    rcases hs : allocScan p.used p.maxID (2 * u32) p.minID with _ | j
    · rw [applyOp, Allocate_eq_of_scan_none hs]
      exact hu
    · rw [applyOp, Allocate_eq_of_scan_some hs]
      have hb := allocScan_bounds hmax _ _ hs
      exact Finset.insert_subset (Finset.mem_Icc.mpr hb) hu
  | release id =>
    exact (Finset.erase_subset _ _).trans hu
  | mark id =>
    have := hop id rfl
    exact Finset.insert_subset (Finset.mem_Icc.mpr this) hu

/-- A sequence of pool operations preserves the range invariant. -/
theorem applyOps_used_sub :
    ∀ (ops : List PoolOp) (p : ProjectIDPool),
      p.maxID + 1 < u32 →
      p.used ⊆ Finset.Icc p.minID p.maxID →
      (∀ id, PoolOp.mark id ∈ ops → p.minID ≤ id ∧ id ≤ p.maxID) →
      (applyOps p ops).used ⊆ Finset.Icc p.minID p.maxID := by
  intro ops
  induction ops with
  | nil => intro p _ hu _; exact hu
  | cons op ops ih =>
    intro p hmax hu hmark
    rw [applyOps]
    have h1 := applyOp_minID p op
    have h2 := applyOp_maxID p op
    have hstep := applyOp_used_sub p op hmax hu
      (fun id he => hmark id (he ▸ List.mem_cons_self _ _))
    have := ih (applyOp p op) (by rw [h2]; exact hmax)
      (by rw [h1, h2]; exact hstep)
      (by rw [h1, h2]; exact fun id hm => hmark id (List.mem_cons_of_mem _ hm))
    rw [h1, h2] at this
    exact this

/-- Association-list lookup at a cons cell, with propositional
equality. -/
theorem lookup_cons (c k : String) (v : Entry) (t : Entries) :
    List.lookup c ((k, v) :: t) = if c = k then some v else List.lookup c t := by
  rw [List.lookup]
  by_cases h : c = k
  · rw [if_pos h, show (c == k) = true by simp [h]]
  · rw [if_neg h, show (c == k) = false by simp [h]]

/-- Dropping the bindings of a different key does not change a lookup. -/
theorem lookup_filterKey_ne {cid c : String} (h : ¬c = cid) :
    ∀ (es : Entries),
      List.lookup c (es.filter (fun p => p.1 ≠ cid)) = List.lookup c es := by
  intro es
  induction es with
  | nil => rfl
  | cons kv t ih =>
    rcases kv with ⟨k, v⟩
    by_cases hk : k = cid
    · rw [List.filter_cons_of_neg (by simp [hk])]
      rw [ih, lookup_cons, if_neg (by rw [hk]; exact h)]
    · rw [List.filter_cons_of_pos (by simp [hk])]
      rw [lookup_cons, lookup_cons]
      by_cases hck : c = k
      · rw [if_pos hck, if_pos hck]
      · rw [if_neg hck, if_neg hck]
        exact ih

/-- After `insertEntry` the inserted key maps to the inserted entry. -/
theorem lookup_insertEntry_self (es : Entries) (cid : String) (e : Entry) :
    List.lookup cid (insertEntry es cid e) = some e := by
  rw [insertEntry, lookup_cons, if_pos rfl]

/-- After `insertEntry` every other key maps to what it mapped to
before. -/
theorem lookup_insertEntry_ne (es : Entries) (cid c : String) (e : Entry)
    (h : ¬c = cid) :
    List.lookup c (insertEntry es cid e) = List.lookup c es := by
  rw [insertEntry, lookup_cons, if_neg h]
  exact lookup_filterKey_ne h es

/-! Claim theorems. -/

/-- Claim C1 (code bug in src/pkg/handler/handle.go): for a live container
`c1` whose path exists and for which the store holds the entry
`{c1, 7, /var/lib/x/c1}`, the reconciliation pass of src/test/main.go
calls `MarkUsed 7` (and makes no other call, in particular no Allocate),
leaving 7 in-use, exactly as the claim states; but the production
`syncState` of src/pkg/handler/handle.go makes no call at all for that
container — it never calls `MarkUsed`, so identifier 7 stays free in the
pool after reconciliation. -/
theorem C1_reconcile_markUsed_divergence :
    (syncPass (syncStepTest "10g" "10g") (NewProjectIDPool 1 100)
        [("c1", ⟨"c1", 7, "/var/lib/x/c1"⟩)]
        [⟨"c1", some "/var/lib/x/c1", true, true, true, true⟩]).calls
      = [("c1", .markUsed 7)] ∧
    7 ∈ (syncPass (syncStepTest "10g" "10g") (NewProjectIDPool 1 100)
        [("c1", ⟨"c1", 7, "/var/lib/x/c1"⟩)]
        [⟨"c1", some "/var/lib/x/c1", true, true, true, true⟩]).pool.used ∧
    (syncPass (syncStepHandler "10g" "10g") (NewProjectIDPool 1 100)
        [("c1", ⟨"c1", 7, "/var/lib/x/c1"⟩)]
        [⟨"c1", some "/var/lib/x/c1", true, true, true, true⟩]).calls = [] ∧
    7 ∉ (syncPass (syncStepHandler "10g" "10g") (NewProjectIDPool 1 100)
        [("c1", ⟨"c1", 7, "/var/lib/x/c1"⟩)]
        [⟨"c1", some "/var/lib/x/c1", true, true, true, true⟩]).pool.used := by
  refine ⟨rfl, ?_, rfl, ?_⟩ <;> decide

/-- Claim C2 counterexample: on an empty store, `AddEntry` with a failing
durable write returns failure, yet the inserted entry is visible in the
in-memory map afterwards — the map is not rolled back to its pre-call
value as the claim states. -/
theorem C2_put_rollback_counterexample :
    (AddEntry [] "c" 1 "/p" false).1 = false ∧
    List.lookup "c" (AddEntry [] "c" 1 "/p" false).2 = some ⟨"c", 1, "/p"⟩ ∧
    (AddEntry [] "c" 1 "/p" false).2 ≠ ([] : Entries) :=
  ⟨rfl, rfl, by decide⟩

/-- Claim C2 (amended): when the durable write fails, `AddEntry` returns
failure, but the inserted or replaced entry remains visible in the
in-memory map (every other key is unchanged); there is no rollback. -/
theorem C2_put_failed_write_amended (es : Entries) (cid : String) (pid : ℕ)
    (up : String) :
    (AddEntry es cid pid up false).1 = false ∧
    List.lookup cid (AddEntry es cid pid up false).2 = some ⟨cid, pid, up⟩ ∧
    ∀ c, ¬c = cid →
      List.lookup c (AddEntry es cid pid up false).2 = List.lookup c es :=
  ⟨rfl, lookup_insertEntry_self es cid _,
   fun c hc => lookup_insertEntry_ne es cid c _ hc⟩

/-- Witness for the amended claim C2 at a concrete one-entry store. -/
theorem C2_put_failed_write_amended_witness :
    (AddEntry [("d", ⟨"d", 2, "/q"⟩)] "c" 1 "/p" false).1 = false ∧
    List.lookup "c" (AddEntry [("d", ⟨"d", 2, "/q"⟩)] "c" 1 "/p" false).2
        = some ⟨"c", 1, "/p"⟩ ∧
    List.lookup "d" (AddEntry [("d", ⟨"d", 2, "/q"⟩)] "c" 1 "/p" false).2
        = List.lookup "d" [("d", ⟨"d", 2, "/q"⟩)] :=
  ⟨(C2_put_failed_write_amended [("d", ⟨"d", 2, "/q"⟩)] "c" 1 "/p").1,
   (C2_put_failed_write_amended [("d", ⟨"d", 2, "/q"⟩)] "c" 1 "/p").2.1,
   (C2_put_failed_write_amended [("d", ⟨"d", 2, "/q"⟩)] "c" 1 "/p").2.2 "d"
     (by decide)⟩

/-- Claim C3 (code bug in src/pkg/handler/handle.go): when the `AddEntry`
durable write fails after allocation and both enforcement calls
succeeded, `handleTaskCreate` releases identifier 7 back to the pool,
while the event loop of src/test/main.go keeps it in-use as the claim
states. -/
theorem C3_persist_fail_release_divergence :
    (handleTaskCreate (NewProjectIDPool 7 9) [] "10g" "10g" "c1" "/p"
        true true false).ok = false ∧
    7 ∉ (handleTaskCreate (NewProjectIDPool 7 9) [] "10g" "10g" "c1" "/p"
        true true false).used ∧
    7 ∈ (testTaskCreate (NewProjectIDPool 7 9) [] "10g" "10g" "c1" "/p"
        true true false).used := by
  refine ⟨rfl, ?_, ?_⟩ <;> decide

/-- Claim C4 (code bug in src/pkg/handler/handle.go): when clearing
enforcement fails during deletion, `handleTaskDelete` returns before the
remaining cleanup, keeping the store entry and identifier 7; the event
loop of src/test/main.go removes the entry and releases the identifier as
the claim states. -/
theorem C4_clear_fail_cleanup_divergence :
    (handleTaskDelete ⟨{7}, 1, 100⟩ [("c1", ⟨"c1", 7, "/var/lib/x/c1"⟩)]
        "c1" (some "/var/lib/x/c1") true (some 7) false true).entries
      = [("c1", ⟨"c1", 7, "/var/lib/x/c1"⟩)] ∧
    7 ∈ (handleTaskDelete ⟨{7}, 1, 100⟩ [("c1", ⟨"c1", 7, "/var/lib/x/c1"⟩)]
        "c1" (some "/var/lib/x/c1") true (some 7) false true).used ∧
    (handleTaskDelete ⟨{7}, 1, 100⟩ [("c1", ⟨"c1", 7, "/var/lib/x/c1"⟩)]
        "c1" (some "/var/lib/x/c1") true (some 7) false true).ok = false ∧
    (testTaskDelete ⟨{7}, 1, 100⟩ [("c1", ⟨"c1", 7, "/var/lib/x/c1"⟩)]
        "c1" (some "/var/lib/x/c1") true (some 7) false true).entries = [] ∧
    7 ∉ (testTaskDelete ⟨{7}, 1, 100⟩ [("c1", ⟨"c1", 7, "/var/lib/x/c1"⟩)]
        "c1" (some "/var/lib/x/c1") true (some 7) false true).used := by
  refine ⟨rfl, ?_, rfl, rfl, ?_⟩ <;> decide

/-- Claim C5 counterexample: with the store holding entry
`{c, 5, /p}` and the filesystem read-back failing, `GetProjectID`
returns identifier 0 with success — it does not prefer (or ever return)
the StateStore-recorded identifier 5, contradicting the claim that the
StateStore identifier is used whenever an entry exists. -/
theorem C5_id_preference_counterexample :
    GetEntry [("c", ⟨"c", 5, "/p"⟩)] "c" = some ⟨"c", 5, "/p"⟩ ∧
    GetProjectID [("c", ⟨"c", 5, "/p"⟩)] "c" none = .ok 0 ∧
    (Except.ok 0 : Except Unit ℕ) ≠ .ok 5 :=
  ⟨rfl, rfl, by simp⟩

/-- Claim C5 (amended): the identifier returned is always the filesystem
read-back value (0 when the read-back fails); the StateStore entry is used
only as a cross-check: when no entry exists and the read-back fails an
error is reported, and when the read-back value is nonzero, an entry
exists and they disagree, a state-inconsistency error is reported. -/
theorem C5_id_resolution_amended (es : Entries) (cid : String)
    (fsRead : Option ℕ) :
    (∀ id, GetProjectID es cid fsRead = .ok id → id = fsRead.getD 0) ∧
    (GetEntry es cid = none → fsRead = none →
      GetProjectID es cid fsRead = .error ()) ∧
    (∀ e v, GetEntry es cid = some e → fsRead = some v → v ≠ 0 →
      e.projectID ≠ v → GetProjectID es cid fsRead = .error ()) := by
  refine ⟨?_, ?_, ?_⟩
  · intro id h
    rcases he : GetEntry es cid with _ | e <;> rcases hf : fsRead with _ | v <;>
        simp only [GetProjectID, he, hf] at h <;> simp at h ⊢
    · exact h.symm
    · exact h.symm
    · by_cases hc : ¬v = 0 ∧ ¬e.projectID = v
      · rw [if_pos hc] at h
        cases h
      · rw [if_neg hc] at h
        exact (Except.ok.inj h).symm
  · intro he hf
    simp only [GetProjectID, he, hf]
  · intro e v he hf hv hne
    simp only [GetProjectID, he, hf]
    rw [if_pos]
    constructor
    · simpa using hv
    · simpa using hne

/-- Witness for the amended claim C5: both error cases at concrete
inputs. -/
theorem C5_id_resolution_amended_witness :
    GetProjectID [] "x" none = .error () ∧
    GetProjectID [("c", ⟨"c", 5, "/p"⟩)] "c" (some 3) = .error () :=
  ⟨(C5_id_resolution_amended [] "x" none).2.1 rfl rfl,
   (C5_id_resolution_amended [("c", ⟨"c", 5, "/p"⟩)] "c" (some 3)).2.2
     ⟨"c", 5, "/p"⟩ 3 rfl rfl (by decide) (by decide)⟩

/-- Claim C6 counterexample: on a fresh pool over `[2, 5]`, the single
call `MarkUsed 100` puts 100 into the in-use set, which is then not a
subset of `[2, 5]` — `MarkUsed` performs no range check. -/
theorem C6_inuse_subset_counterexample :
    ¬ ((applyOps (NewProjectIDPool 2 5) [PoolOp.mark 100]).used ⊆
        Finset.Icc 2 5) := by decide

/-- Claim C6 (amended): starting from a fresh pool over `[minID, maxID]`
with `maxID + 1 < 2^32` (no uint32 wraparound in the allocation scan),
after every finite sequence of Allocate, Release and MarkUsed calls in
which each MarkUsed argument lies within `[minID, maxID]` (Release
arguments stay arbitrary), the in-use set is a subset of
`[minID, maxID]`. -/
theorem C6_inuse_subset_amended (minID maxID : ℕ) (ops : List PoolOp)
    (hmax : maxID + 1 < u32)
    (hmark : ∀ id, PoolOp.mark id ∈ ops → minID ≤ id ∧ id ≤ maxID) :
    (applyOps (NewProjectIDPool minID maxID) ops).used ⊆
      Finset.Icc minID maxID :=
  applyOps_used_sub ops (NewProjectIDPool minID maxID) hmax
    (Finset.empty_subset _) hmark

/-- Witness for the amended claim C6 on a concrete operation sequence. -/
theorem C6_inuse_subset_amended_witness :
    (applyOps (NewProjectIDPool 2 5)
        [PoolOp.mark 3, PoolOp.alloc, PoolOp.release 9]).used ⊆
      Finset.Icc 2 5 :=
  C6_inuse_subset_amended 2 5 [PoolOp.mark 3, PoolOp.alloc, PoolOp.release 9]
    (by decide)
    (by intro id h; simp at h; omega)

/-- Claim C7 counterexample: on the pool over
`[4294967294, 4294967295]` (allowed by the configuration validation,
which only requires `0 < minID < maxID`) with both identifiers in-use,
`Allocate` does not fail: the uint32 loop counter wraps past
`maxID = 2^32 - 1` and it returns identifier 0, mutating the in-use
set — contradicting both the lowest-free-in-range and the
fail-when-exhausted parts of the claim. -/
theorem C7_allocate_lowest_counterexample :
    (∀ j ∈ Finset.Icc 4294967294 4294967295,
        j ∈ ({4294967294, 4294967295} : Finset ℕ)) ∧
    ((⟨{4294967294, 4294967295}, 4294967294, 4294967295⟩ :
        ProjectIDPool).Allocate).1 = some 0 ∧
    ((⟨{4294967294, 4294967295}, 4294967294, 4294967295⟩ :
        ProjectIDPool).Allocate).2.used ≠ {4294967294, 4294967295} := by
  refine ⟨by decide, rfl, by decide⟩

/-- Claim C7 (amended): provided `maxID + 1 < 2^32` (so the uint32 loop
counter cannot wrap), Allocate returns the minimum identifier in
`[minID, maxID]` not currently in-use and marks it in-use; it succeeds
whenever a free identifier exists in the range, and when every identifier
in the range is in-use it fails and leaves the pool unchanged. -/
theorem C7_allocate_lowest_amended (p : ProjectIDPool)
    (hmax : p.maxID + 1 < u32) :
    (∀ id, (p.Allocate).1 = some id →
        p.minID ≤ id ∧ id ≤ p.maxID ∧ id ∉ p.used ∧
        (∀ j, p.minID ≤ j → j ≤ p.maxID → j ∉ p.used → id ≤ j) ∧
        (p.Allocate).2.used = insert id p.used) ∧
    ((∃ j, p.minID ≤ j ∧ j ≤ p.maxID ∧ j ∉ p.used) →
      ∃ id, (p.Allocate).1 = some id) ∧
    ((∀ j, p.minID ≤ j → j ≤ p.maxID → j ∈ p.used) →
      (p.Allocate).1 = none ∧ (p.Allocate).2 = p) := by
  refine ⟨?_, ?_, ?_⟩
  · intro id h
    have hs := Allocate_fst_some h
    have hb := allocScan_bounds hmax _ _ hs
    have hnm := allocScan_not_mem _ _ hs
    have hmin := allocScan_min hmax _ _ hs
    refine ⟨hb.1, hb.2, hnm, ?_, ?_⟩
    · intro j hj1 hj2 hj3
      by_contra hlt
      push_neg at hlt
      exact hj3 (hmin j hj1 hlt)
    · rw [Allocate_eq_of_scan_some hs]
  · rintro ⟨j, hj1, hj2, hj3⟩
    have hpos : 0 < u32 := by norm_num [u32]
    obtain ⟨id, hid⟩ :=
      allocScan_some hmax (2 * u32) p.minID (by omega) j hj1 hj2 hj3
    exact ⟨id, by rw [Allocate_eq_of_scan_some hid]⟩
  · intro hall
    have hn := allocScan_none hmax (2 * u32) p.minID
      (fun j hj1 hj2 => hall j hj1 hj2)
    rw [Allocate_eq_of_scan_none hn]
    exact ⟨rfl, rfl⟩

/-- Witness for the amended claim C7: the fresh pool over `[1, 3]` can
allocate. -/
theorem C7_allocate_lowest_amended_witness :
    ∃ id, ((NewProjectIDPool 1 3).Allocate).1 = some id :=
  (C7_allocate_lowest_amended (NewProjectIDPool 1 3) (by decide)).2.1
    ⟨1, le_rfl, by decide, by decide⟩

/-- Claim C8: in `handleTaskCreate`, when the limit call fails after the
tag call succeeded, the sequence reports failure, the allocated
identifier is free again (the used set equals its pre-call value, so a
later Allocate can return it), and no entry is persisted. -/
theorem C8_limit_fail_rollback (p : ProjectIDPool) (es : Entries)
    (softCfg hardCfg cid upperdir : String) (writeOk : Bool) (id : ℕ)
    (halloc : (p.Allocate).1 = some id) :
    (handleTaskCreate p es softCfg hardCfg cid upperdir true false writeOk).ok
        = false ∧
    (handleTaskCreate p es softCfg hardCfg cid upperdir true false writeOk).used
        = p.used ∧
    (handleTaskCreate p es softCfg hardCfg cid upperdir true false
        writeOk).entries = es := by
  have hs := Allocate_fst_some halloc
  have hnm := allocScan_not_mem _ _ hs
  rw [handleTaskCreate, Allocate_eq_of_scan_some hs]
  simp [ProjectIDPool.Release, Finset.erase_insert hnm]

/-- Witness for claim C8 on a concrete pool. -/
theorem C8_limit_fail_rollback_witness :
    (handleTaskCreate (NewProjectIDPool 2 5) [] "5g" "10g" "c" "/p"
        true false true).ok = false ∧
    (handleTaskCreate (NewProjectIDPool 2 5) [] "5g" "10g" "c" "/p"
        true false true).used = (NewProjectIDPool 2 5).used ∧
    (handleTaskCreate (NewProjectIDPool 2 5) [] "5g" "10g" "c" "/p"
        true false true).entries = [] :=
  C8_limit_fail_rollback (NewProjectIDPool 2 5) [] "5g" "10g" "c" "/p"
    true 2 (by decide)

/-- Claim C9 (code bug in src/pkg/handler/handle.go): with configured
soft limit "5g" and hard limit "10g", `handleTaskCreate` passes the soft
value as both arguments of the limit call, while the event loop of
src/test/main.go passes soft then hard as the claim (and the sibling
`restoreQuota` in the same file) does. -/
theorem C9_setlimit_args_divergence :
    (handleTaskCreate (NewProjectIDPool 2 5) [] "5g" "10g" "c" "/p"
        true true true).calls =
      [.allocOk 2, .tag "/p" 2, .setLimit 2 "5g" "5g"] ∧
    (testTaskCreate (NewProjectIDPool 2 5) [] "5g" "10g" "c" "/p"
        true true true).calls =
      [.allocOk 2, .tag "/p" 2, .setLimit 2 "5g" "10g"] :=
  ⟨rfl, rfl⟩

/-- Claim C10: constructing the state manager over an existing
zero-length state file succeeds with an empty store, for every possible
behaviour of the JSON decoder (the zero-length check short-circuits
before any parse). -/
theorem C10_empty_state_file (parse : String → Option Entries) :
    NewStateManager parse (some "") = some [] := rfl

/-- Witness for claim C10 with a decoder that rejects everything (as a
real JSON decoder does on empty input). -/
theorem C10_empty_state_file_witness :
    NewStateManager (fun _ => none) (some "") = some [] :=
  C10_empty_state_file (fun _ => none)

end ConQuotas
